import Mathlib

/-!
Verification of the CellRegMap / StructLMM2 variance-component testing
library.  The Python source is shallowly embedded: real-valued numerical
quantities are modelled over `ℚ` where only ordered-field operations occur
and over `ℝ` where square roots occur; external numerical collaborators
(the glimix LMM fitter, `chiscore.davies_pvalue`, `scipy.stats.chi2.sf`)
are parameters of the embedded operations.
-/

open scoped Matrix

namespace CellRegMap

/-- Model of `numpy.linspace(a, b, num)` with `endpoint=True`:
`num` evenly spaced values from `a` to `b` inclusive. -/
def linspace (a b : ℚ) (num : Nat) : List ℚ :=
  (List.range num).map (fun i => a + (b - a) * i / (num - 1))

/-- The ρ₁ grid chosen by `CellRegMap.__init__`
(src/cellregmap/_cellregmap.py lines 112-142): when `Ls` is empty and no
`hK` is given the grid is the singleton `[1.0]`; otherwise it is
`linspace(0, 1, 11)`. -/
def cellRegMap_rho1 (lsEmpty hkNone : Bool) : List ℚ :=
  if lsEmpty then
    if hkNone then [1] else linspace 0 1 11
  else linspace 0 1 11

/-- The ρ₁ grid chosen by `StructLMM2.__init__`
(src/struct_lmm2/_struct_lmm2.py lines 71-90): singleton `[1.0]` when the
secondary factor list `G` is empty, else `linspace(0, 1, 10)`. -/
def structLMM2_rho1 (gEmpty : Bool) : List ℚ :=
  if gEmpty then [1] else linspace 0 1 10

/-- When no secondary factors exist, `CellRegMap.__init__` (line 116)
stores the context matrix itself as the half-matrix:
`self._halfSigma[1.0] = self._E1`. -/
def cellRegMap_halfSigma_noSecondary {n c : Type} (E1 : Matrix n c ℝ) :
    Matrix n c ℝ := E1

/-- The arg-max-by-LML accumulator loop shared by every grid sweep in the
source (`best = {"lml": -inf, ...}`; `if lmm.lml() > best["lml"]: update`).
The `-inf` initialisation is modelled by an `Option` accumulator: the first
candidate always replaces `none`, and a later candidate replaces the held
one only when its `lml` is strictly greater. -/
def selectStep {α : Type} (lml : α → ℚ) (best : Option α) (c : α) : Option α :=
  match best with
  | none => some c
  | some b => if lml b < lml c then some c else some b

def selectBest {α : Type} (lml : α → ℚ) (l : List α) : Option α :=
  l.foldl (selectStep lml) none

theorem selectBest_aux {α : Type} (lml : α → ℚ) :
    ∀ (l : List α) (b : α), ∃ r, l.foldl (selectStep lml) (some b) = some r ∧
      lml b ≤ lml r ∧ (∀ c ∈ l, lml c ≤ lml r) ∧
      (r = b ∨ ∃ pre post, l = pre ++ r :: post ∧ lml b < lml r ∧
        ∀ c ∈ pre, lml c < lml r)
  | [], b => ⟨b, rfl, le_refl _, by simp, Or.inl rfl⟩
  | a :: l, b => by
      by_cases h : lml b < lml a
      · obtain ⟨r, hfold, hle, hall, hcase⟩ := selectBest_aux lml l a
        refine ⟨r, ?_, le_of_lt (lt_of_lt_of_le h hle), ?_, ?_⟩
        · simpa [selectStep, h] using hfold
        · intro c hc
          rcases List.mem_cons.mp hc with rfl | hc
          · exact hle
          · exact hall c hc
        · rcases hcase with rfl | ⟨pre, post, hl, hlt, hpre⟩
          · exact Or.inr ⟨[], l, by simp, h, by simp⟩
          · refine Or.inr ⟨a :: pre, post, by simp [hl], lt_trans h hlt, ?_⟩
            intro c hc
            rcases List.mem_cons.mp hc with rfl | hc
            · exact hlt
            · exact hpre c hc
      · push_neg at h
        obtain ⟨r, hfold, hle, hall, hcase⟩ := selectBest_aux lml l b
        refine ⟨r, ?_, hle, ?_, ?_⟩
        · simpa [selectStep, not_lt.mpr h] using hfold
        · intro c hc
          rcases List.mem_cons.mp hc with rfl | hc
          · exact le_trans h hle
          · exact hall c hc
        · rcases hcase with rfl | ⟨pre, post, hl, hlt, hpre⟩
          · exact Or.inl rfl
          · refine Or.inr ⟨a :: pre, post, by simp [hl], hlt, ?_⟩
            intro c hc
            rcases List.mem_cons.mp hc with rfl | hc
            · exact lt_of_le_of_lt h hlt
            · exact hpre c hc

/-- C4: the grid sweep's accumulator (strict `>` against a `-inf` start)
returns the first candidate attaining the maximum LML: the selected
element is a maximiser, and every candidate strictly before it in grid
order has strictly smaller LML. -/
theorem selectBest_first_argmax {α : Type} (lml : α → ℚ) (l : List α)
    (hne : l ≠ []) :
    ∃ pre x post, selectBest lml l = some x ∧ l = pre ++ x :: post ∧
      (∀ c ∈ l, lml c ≤ lml x) ∧ ∀ c ∈ pre, lml c < lml x := by
  match l, hne with
  | a :: l, _ =>
    obtain ⟨r, hfold, hle, hall, hcase⟩ := selectBest_aux lml l a
    have hsel : selectBest lml (a :: l) = some r := by
      simpa [selectBest, selectStep] using hfold
    have hall2 : ∀ c ∈ a :: l, lml c ≤ lml r := by
      intro c hc
      rcases List.mem_cons.mp hc with rfl | hc
      · exact hle
      · exact hall c hc
    rcases hcase with rfl | ⟨pre, post, hl, hlt, hpre⟩
    · exact ⟨[], r, l, hsel, by simp, hall2, by simp⟩
    · refine ⟨a :: pre, r, post, hsel, by simp [hl], hall2, ?_⟩
      intro c hc
      rcases List.mem_cons.mp hc with rfl | hc
      · exact hlt
      · exact hpre c hc

/-- Witness for C4 at a concrete tied grid: in `[3, 5, 5, 2]` the first
`5` is selected. -/
theorem selectBest_first_argmax_witness :
    ([(3 : ℚ), 5, 5, 2] ≠ []) ∧
      ∃ pre x post, selectBest (fun q : ℚ => q) [(3 : ℚ), 5, 5, 2] = some x ∧
        [(3 : ℚ), 5, 5, 2] = pre ++ x :: post ∧
        (∀ c ∈ [(3 : ℚ), 5, 5, 2], c ≤ x) ∧ ∀ c ∈ pre, c < x :=
  ⟨by decide, selectBest_first_argmax (fun q : ℚ => q) _ (by decide)⟩

/-- Model of `numpy.clip(x, lo, hi)`: `min (max x lo) hi` (the lower bound is
applied first). -/
def clipQ (x lo hi : ℚ) : ℚ := min (max x lo) hi

/-- One entry of `lrt_pvalues` (src/cellregmap/_cellregmap.py lines
419-442) for a single alternative LML: the likelihood ratio
`-2·null_lml + 2·alt_lml` is clipped below at `epsilon.super_tiny` (the
upper clip bound in the source is `inf`), passed to the external
`chi2(df=dof).sf` survival function, and the resulting p-value is clipped
into `[epsilon.super_tiny, 1 - epsilon.tiny]`.  The survival function and
the two epsilon constants of `numpy_sugar` are parameters. -/
def lrt_pvalue (chi2sf : ℚ → ℚ) (sTiny tiny : ℚ) (null_lml alt_lml : ℚ) : ℚ :=
  clipQ (chi2sf (max (-2 * null_lml + 2 * alt_lml) sTiny)) sTiny (1 - tiny)

/-- The function `lrt_pvalues` applied to a list of alternative LMLs. -/
def lrt_pvalues (chi2sf : ℚ → ℚ) (sTiny tiny : ℚ) (null_lml : ℚ)
    (alt_lmls : List ℚ) : List ℚ :=
  alt_lmls.map (lrt_pvalue chi2sf sTiny tiny null_lml)

/-- C9: for any survival function that is monotone non-increasing (the
contract of `chi2.sf` at fixed degrees of freedom) and any fixed null LML,
the p-value produced by `lrt_pvalue` is monotone non-increasing in the
alternative LML. -/
theorem lrt_pvalue_antitone (chi2sf : ℚ → ℚ) (hsf : Antitone chi2sf)
    (sTiny tiny null_lml : ℚ) (a1 a2 : ℚ) (h : a1 ≤ a2) :
    lrt_pvalue chi2sf sTiny tiny null_lml a2 ≤
      lrt_pvalue chi2sf sTiny tiny null_lml a1 := by
  unfold lrt_pvalue clipQ
  have hlr : max (-2 * null_lml + 2 * a1) sTiny ≤
      max (-2 * null_lml + 2 * a2) sTiny :=
    max_le_max (by linarith) (le_refl _)
  exact min_le_min (max_le_max (hsf hlr) (le_refl _)) (le_refl _)

/-- Witness for C9 with the concrete antitone survival function
`x ↦ -x`. -/
theorem lrt_pvalue_antitone_witness :
    (0 : ℚ) ≤ 1 ∧
      lrt_pvalue (fun x : ℚ => -x) (1 / 10 ^ 12) (1 / 10 ^ 7) 0 1 ≤
        lrt_pvalue (fun x : ℚ => -x) (1 / 10 ^ 12) (1 / 10 ^ 7) 0 0 :=
  ⟨by norm_num,
    lrt_pvalue_antitone (fun x : ℚ => -x) (fun _ _ hab => neg_le_neg hab)
      (1 / 10 ^ 12) (1 / 10 ^ 7) 0 0 1 (by norm_num)⟩

/-- Helper: whatever the external survival function returns, every entry
of `lrt_pvalues` is clipped into `[super_tiny, 1 - tiny]`. -/
theorem lrt_pvalues_mem_bounds (chi2sf : ℚ → ℚ) (sTiny tiny : ℚ)
    (h0 : 0 < sTiny) (h1 : sTiny ≤ 1 - tiny) (h2 : 0 < tiny)
    (null_lml : ℚ) (alt_lmls : List ℚ) :
    ∀ p ∈ lrt_pvalues chi2sf sTiny tiny null_lml alt_lmls,
      sTiny ≤ p ∧ p ≤ 1 - tiny ∧ p ≠ 0 ∧ p ≠ 1 := by
  intro p hp
  obtain ⟨a, _, rfl⟩ := List.mem_map.mp hp
  unfold lrt_pvalue clipQ
  have hlo : sTiny ≤ min (max (chi2sf (max (-2 * null_lml + 2 * a) sTiny)) sTiny)
      (1 - tiny) := le_min (le_max_right _ _) h1
  have hhi : min (max (chi2sf (max (-2 * null_lml + 2 * a) sTiny)) sTiny)
      (1 - tiny) ≤ 1 - tiny := min_le_right _ _
  refine ⟨hlo, hhi, ?_, ?_⟩
  · exact ne_of_gt (lt_of_lt_of_le h0 hlo)
  · exact ne_of_lt (lt_of_le_of_lt hhi (by linarith))

/-- The diagnostics dictionary `info = {"rho1": ..., "e2": ..., "g2": ...,
"eps2": ...}` built by the scan operations. -/
structure InfoDict where
  rho1 : List ℚ
  e2 : List ℚ
  g2 : List ℚ
  eps2 : List ℚ

/-- The grid sweep shared by every scan: pair each ρ of the grid with the
external fitter's result `(lml, v0, v1)` for that ρ and keep the first
strict maximiser by LML. -/
def gridBest (fit : ℚ → ℚ × ℚ × ℚ) (grid : List ℚ) :
    Option (ℚ × ℚ × ℚ × ℚ) :=
  selectBest (fun p => p.2.1) (grid.map (fun rho => (rho, fit rho)))

/-- The per-SNP best null fit `(ρ, v0, v1)` of `process_snp_batch`
(src/cellregmap/_cellregmap.py lines 387-399).  The source raises on an
empty grid (the `best` dictionary would still hold `lmm = None`); the
constructor always produces a non-empty grid, and the fallback value here
is only reachable for an empty grid. -/
def snpNullBest (fit : Nat → ℚ → ℚ × ℚ × ℚ) (grid : List ℚ) (i : Nat) :
    ℚ × ℚ × ℚ :=
  match gridBest (fit i) grid with
  | some (rho, _, v0, v1) => (rho, v0, v1)
  | none => (0, 0, 0)

/-- Model of `process_snp_batch` (src/cellregmap/_cellregmap.py lines 379-416):
for each SNP index, the best null fit is selected over the ρ grid, the
score-test p-value returned by the external `davies_pvalue` routine
(abstracted here as `davies : Nat → ℚ`, the value the routine returns for
SNP `i`) is appended UNCLIPPED, and one diagnostics entry
`(ρ, v0·ρ, v0·(1-ρ), v1)` is appended per SNP. -/
def process_snp_batch (fit : Nat → ℚ → ℚ × ℚ × ℚ) (grid : List ℚ)
    (davies : Nat → ℚ) (snps : List Nat) : List ℚ × InfoDict :=
  (snps.map (fun i => davies i),
    { rho1 := snps.map (fun i => (snpNullBest fit grid i).1)
      e2 := snps.map (fun i =>
        (snpNullBest fit grid i).2.1 * (snpNullBest fit grid i).1)
      g2 := snps.map (fun i =>
        (snpNullBest fit grid i).2.1 * (1 - (snpNullBest fit grid i).1))
      eps2 := snps.map (fun i => (snpNullBest fit grid i).2.2) })

/-- Model of `CellRegMap.scan_interaction` (src/cellregmap/_cellregmap.py
lines 325-369): the batched results are flattened back into input SNP order, so
the scan is `process_snp_batch` over all `m` SNP indices. -/
def scan_interaction (fit : Nat → ℚ → ℚ × ℚ × ℚ) (grid : List ℚ)
    (davies : Nat → ℚ) (m : Nat) : List ℚ × InfoDict :=
  process_snp_batch fit grid davies (List.range m)

/-- Model of `CellRegMap.scan_association` (src/cellregmap/_cellregmap.py lines
257-289): one shared null fit is selected over the ρ grid, a single
diagnostics entry is appended from it, and the per-SNP alternative LMLs
(`altLml i` for SNP `i`, produced by the external fitter) are turned into
p-values by `lrt_pvalues`.  The source raises on an empty grid; the empty
fallback is unreachable for the constructor's grids. -/
def scan_association (fit : ℚ → ℚ × ℚ × ℚ) (grid : List ℚ)
    (chi2sf : ℚ → ℚ) (sTiny tiny : ℚ) (altLml : Nat → ℚ) (m : Nat) :
    List ℚ × InfoDict :=
  match gridBest fit grid with
  | none => ([], ⟨[], [], [], []⟩)
  | some (rho, lml, v0, v1) =>
      (lrt_pvalues chi2sf sTiny tiny lml ((List.range m).map altLml),
        ⟨[rho], [v0 * rho], [v0 * (1 - rho)], [v1]⟩)

/-- C1 (amended): every p-value returned through `lrt_pvalues` (the
association path) lies in `[super_tiny, 1 - tiny]` and is never exactly
0 or 1; the interaction path instead returns the external Davies
routine's p-values unmodified (no clipping). -/
theorem scan_pvalue_bounds (chi2sf : ℚ → ℚ) (sTiny tiny : ℚ)
    (h0 : 0 < sTiny) (h1 : sTiny ≤ 1 - tiny) (h2 : 0 < tiny)
    (null_lml : ℚ) (alt_lmls : List ℚ) (fit : Nat → ℚ → ℚ × ℚ × ℚ)
    (grid : List ℚ) (davies : Nat → ℚ) (m : Nat) :
    (∀ p ∈ lrt_pvalues chi2sf sTiny tiny null_lml alt_lmls,
        sTiny ≤ p ∧ p ≤ 1 - tiny ∧ p ≠ 0 ∧ p ≠ 1) ∧
      (scan_interaction fit grid davies m).1 = (List.range m).map davies :=
  ⟨lrt_pvalues_mem_bounds chi2sf sTiny tiny h0 h1 h2 null_lml alt_lmls, rfl⟩

/-- Witness for C1's amended theorem at the `numpy_sugar` constants
`super_tiny = 10⁻¹²`, `tiny = 10⁻⁷` and a concrete scan. -/
theorem scan_pvalue_bounds_witness :
    ((0 : ℚ) < 1 / 10 ^ 12 ∧ (1 : ℚ) / 10 ^ 12 ≤ 1 - 1 / 10 ^ 7 ∧
        (0 : ℚ) < 1 / 10 ^ 7) ∧
      (∀ p ∈ lrt_pvalues (fun _ : ℚ => 2) (1 / 10 ^ 12) (1 / 10 ^ 7) 0 [1, 5],
          (1 : ℚ) / 10 ^ 12 ≤ p ∧ p ≤ 1 - 1 / 10 ^ 7 ∧ p ≠ 0 ∧ p ≠ 1) ∧
        (scan_interaction (fun _ rho => (rho, 1, 1)) [1] (fun _ => 1) 1).1 =
          (List.range 1).map (fun _ => 1) :=
  ⟨⟨by norm_num, by norm_num, by norm_num⟩,
    scan_pvalue_bounds (fun _ : ℚ => 2) (1 / 10 ^ 12) (1 / 10 ^ 7)
      (by norm_num) (by norm_num) (by norm_num) 0 [1, 5]
      (fun _ rho => (rho, 1, 1)) [1] (fun _ => 1) 1⟩

/-- Counterexample for C1 as stated: with the external Davies routine
returning the in-contract value 1 (its contract per the spec is a p-value
in `(0, 1]`), `scan_interaction` on the no-kinship grid returns the
p-value exactly 1, because the interaction path applies no clipping. -/
theorem scan_interaction_pvalue_exactly_one :
    (scan_interaction (fun _ rho => (rho, 1, 1)) (cellRegMap_rho1 true true)
        (fun _ => 1) 1).1 = [1] := by
  decide

theorem selectBest_ne_none {α : Type} (lml : α → ℚ) (l : List α)
    (h : l ≠ []) : ∃ r, selectBest lml l = some r := by
  match l, h with
  | a :: l, _ =>
    obtain ⟨r, hfold, _, _, _⟩ := selectBest_aux lml l a
    exact ⟨r, by simpa [selectBest, selectStep] using hfold⟩

/-- C6 (amended): `scan_interaction` returns `m` diagnostics entries (one
selected ρ and variance partition per tested variant) alongside the
length-`m` p-value array, but `scan_association` appends its diagnostics
only once, from the single shared null fit: its diagnostics lists have
length 1 regardless of the number `m` of tested variants. -/
theorem scan_diagnostics_lengths (fitA : ℚ → ℚ × ℚ × ℚ)
    (fit : Nat → ℚ → ℚ × ℚ × ℚ) (grid : List ℚ) (hg : grid ≠ [])
    (chi2sf : ℚ → ℚ) (sTiny tiny : ℚ) (altLml : Nat → ℚ)
    (davies : Nat → ℚ) (m : Nat) :
    ((scan_interaction fit grid davies m).1.length = m ∧
      (scan_interaction fit grid davies m).2.rho1.length = m ∧
      (scan_interaction fit grid davies m).2.e2.length = m ∧
      (scan_interaction fit grid davies m).2.g2.length = m ∧
      (scan_interaction fit grid davies m).2.eps2.length = m) ∧
    ((scan_association fitA grid chi2sf sTiny tiny altLml m).1.length = m ∧
      (scan_association fitA grid chi2sf sTiny tiny altLml m).2.rho1.length = 1 ∧
      (scan_association fitA grid chi2sf sTiny tiny altLml m).2.e2.length = 1 ∧
      (scan_association fitA grid chi2sf sTiny tiny altLml m).2.g2.length = 1 ∧
      (scan_association fitA grid chi2sf sTiny tiny altLml m).2.eps2.length = 1) := by
  constructor
  · simp [scan_interaction, process_snp_batch]
  · have hmap : grid.map (fun rho => (rho, fitA rho)) ≠ [] := by
      intro hcon
      exact hg (List.map_eq_nil_iff.mp hcon)
    obtain ⟨r, hr⟩ :=
      selectBest_ne_none (fun p : ℚ × ℚ × ℚ × ℚ => p.2.1)
        (grid.map (fun rho => (rho, fitA rho))) hmap
    obtain ⟨rho, lml, v0, v1⟩ := r
    simp [scan_association, gridBest, hr, lrt_pvalues]

/-- Witness for C6's amended theorem on a concrete two-variant scan with
the singleton no-kinship grid. -/
theorem scan_diagnostics_lengths_witness :
    (([1] : List ℚ) ≠ []) ∧
      (((scan_interaction (fun _ rho => (rho, 1, 1)) [1] (fun _ => 1) 2).1.length = 2 ∧
        (scan_interaction (fun _ rho => (rho, 1, 1)) [1] (fun _ => 1) 2).2.rho1.length = 2 ∧
        (scan_interaction (fun _ rho => (rho, 1, 1)) [1] (fun _ => 1) 2).2.e2.length = 2 ∧
        (scan_interaction (fun _ rho => (rho, 1, 1)) [1] (fun _ => 1) 2).2.g2.length = 2 ∧
        (scan_interaction (fun _ rho => (rho, 1, 1)) [1] (fun _ => 1) 2).2.eps2.length = 2) ∧
      ((scan_association (fun rho => (rho, 1, 1)) [1] (fun _ => 1 / 2) 0 0
            (fun _ => 0) 2).1.length = 2 ∧
        (scan_association (fun rho => (rho, 1, 1)) [1] (fun _ => 1 / 2) 0 0
            (fun _ => 0) 2).2.rho1.length = 1 ∧
        (scan_association (fun rho => (rho, 1, 1)) [1] (fun _ => 1 / 2) 0 0
            (fun _ => 0) 2).2.e2.length = 1 ∧
        (scan_association (fun rho => (rho, 1, 1)) [1] (fun _ => 1 / 2) 0 0
            (fun _ => 0) 2).2.g2.length = 1 ∧
        (scan_association (fun rho => (rho, 1, 1)) [1] (fun _ => 1 / 2) 0 0
            (fun _ => 0) 2).2.eps2.length = 1)) :=
  ⟨by decide,
    scan_diagnostics_lengths (fun rho => (rho, 1, 1)) (fun _ rho => (rho, 1, 1))
      [1] (by decide) (fun _ => 1 / 2) 0 0 (fun _ => 0) (fun _ => 1) 2⟩

/-- Counterexample for C6 as stated: on a two-variant association scan the
diagnostics carry a single entry (the shared null fit's), not one entry
per tested variant. -/
theorem scan_association_diagnostics_single :
    (scan_association (fun rho => (rho, 1, 1)) [1] (fun _ => 1 / 2) 0 0
        (fun _ => 0) 2).2.rho1.length = 1 ∧ (1 : Nat) ≠ 2 := by
  constructor
  · decide
  · decide

/-- Counterexample for C3 as stated: with secondary factors supplied
(`G` non-empty), `StructLMM2.__init__` builds its ρ₁ grid with
`linspace(0, 1, 10)` — 10 points, not 11. -/
theorem structLMM2_grid_has_ten_points :
    (structLMM2_rho1 false).length = 10 ∧ (10 : Nat) ≠ 11 := by
  constructor
  · decide
  · decide

/-- C3 (amended): `CellRegMap` uses the 11-point equally spaced grid
`{0, 0.1, …, 1}` whenever secondary structure (`Ls` non-empty, or `hK`
supplied) exists, and the singleton `{1.0}` with half-matrix `H = E1`
otherwise; `StructLMM2` with secondary factors instead uses
`linspace(0, 1, 10)`, the 10 equally spaced points `{0, 1/9, …, 1}`. -/
theorem rho_grid_spec :
    (∀ hk, cellRegMap_rho1 false hk = linspace 0 1 11) ∧
      cellRegMap_rho1 true false = linspace 0 1 11 ∧
      linspace 0 1 11 =
        [0, 1/10, 2/10, 3/10, 4/10, 5/10, 6/10, 7/10, 8/10, 9/10, 1] ∧
      cellRegMap_rho1 true true = [1] ∧
      (∀ (n c : Type) (E1 : Matrix n c ℝ),
        cellRegMap_halfSigma_noSecondary E1 = E1) ∧
      structLMM2_rho1 false = linspace 0 1 10 ∧
      linspace 0 1 10 = [0, 1/9, 2/9, 3/9, 4/9, 5/9, 6/9, 7/9, 8/9, 1] :=
  ⟨fun hk => by cases hk <;> rfl, rfl,
    by norm_num [linspace, List.range_succ], rfl,
    fun _ _ _ => rfl, rfl, by norm_num [linspace, List.range_succ]⟩

/-- The shape assertions of `CellRegMap.__init__`
(src/cellregmap/_cellregmap.py lines 92-102), over shape descriptors
(`ndim` = list length, sample count = leading dimension): `W`, `E0`, `E1`
must be 2-dimensional with leading dimension equal to `n = y.shape[0]`
(after flattening `y`), and every `L` in `Ls` likewise. -/
def cellRegMapShapeOk (n : Nat) (W E0 E1 : List Nat)
    (Ls : List (List Nat)) : Bool :=
  (W.length == 2) && (E0.length == 2) && (E1.length == 2) &&
    (W.headD 0 == n) && (E0.headD 0 == n) && (E1.headD 0 == n) &&
    Ls.all (fun L => (L.headD 0 == n) && (L.length == 2))

/-- Model of `CellRegMap.__init__` as a fallible construction: the assertions run
before any decomposition is built or any fit/scan method can be called,
so a shape mismatch surfaces as an `AssertionError` at construction. -/
def cellRegMap_init_validate (n : Nat) (W E0 E1 : List Nat)
    (Ls : List (List Nat)) : Except String Unit :=
  if cellRegMapShapeOk n W E0 E1 Ls then Except.ok ()
  else Except.error "AssertionError"

/-- C7: construction fails (with an `AssertionError`, before any fit or
scan is reachable) exactly when some of `W`, `E0`, `E1`, or an `L` in
`Ls` is not 2-dimensional or has a sample count different from `y`'s. -/
theorem cellRegMap_init_eager_validation (n : Nat) (W E0 E1 : List Nat)
    (Ls : List (List Nat)) :
    cellRegMap_init_validate n W E0 E1 Ls = Except.error "AssertionError" ↔
      ¬(W.length = 2 ∧ E0.length = 2 ∧ E1.length = 2 ∧
        W.headD 0 = n ∧ E0.headD 0 = n ∧ E1.headD 0 = n ∧
        ∀ L ∈ Ls, L.headD 0 = n ∧ L.length = 2) := by
  have h : cellRegMapShapeOk n W E0 E1 Ls = true ↔
      (W.length = 2 ∧ E0.length = 2 ∧ E1.length = 2 ∧
        W.headD 0 = n ∧ E0.headD 0 = n ∧ E1.headD 0 = n ∧
        ∀ L ∈ Ls, L.headD 0 = n ∧ L.length = 2) := by
    simp [cellRegMapShapeOk, List.all_eq_true, and_assoc]
  rw [cellRegMap_init_validate]
  by_cases hb : cellRegMapShapeOk n W E0 E1 Ls
  · rw [if_pos hb]
    constructor
    · intro hcon
      exact Except.noConfusion hcon
    · intro hnp
      exact absurd (h.mp hb) hnp
  · rw [if_neg hb]
    constructor
    · intro _
      exact fun hp => hb (h.mpr hp)
    · intro _
      rfl

/-- The effect-size normalisation denominator of `predict_interaction`
(src/cellregmap/_cellregmap.py line 161; the same expression divides
`beta_star` in src/struct_lmm2/_struct_lmm2.py line 231). -/
noncomputable def maf_denominator (p : ℝ) : ℝ := Real.sqrt (2 * p * (1 - p))

/-- The source computes `normalization = 1 / sqrt(2 * p * (1 - p))`; no minimum-MAF clipping
is applied anywhere in `predict_interaction`. -/
noncomputable def predict_interaction_normalization (p : ℝ) : ℝ := 1 / maf_denominator p

/-- C8: at the boundary MAF `p = 0` the normalisation denominator is
exactly 0, so `predict_interaction` does divide by zero there (numpy
yields `inf` with a warning); at the other boundary `p = 1/2` the
denominator is non-zero. -/
theorem predict_interaction_maf_boundary :
    maf_denominator 0 = 0 ∧
      predict_interaction_normalization 0 = 1 / 0 ∧
      maf_denominator (1 / 2) ≠ 0 := by
  refine ⟨?_, ?_, ?_⟩
  · simp [maf_denominator]
  · simp [predict_interaction_normalization, maf_denominator]
  · simp only [maf_denominator]
    rw [Real.sqrt_ne_zero']
    norm_num

/-- The fields stored by `CellRegMap.__init__`
(src/cellregmap/_cellregmap.py lines 74-87): `_E0 := E`, `_W := W` (or a
column of ones when `W is None`), `_E1 := E1` (or `E` when `E1 is
None`). -/
structure CtxFields (α : Type) where
  yv : α
  E0 : α
  W : α
  E1 : α

def cellRegMap_ctor {α : Type} (y E : α) (Wopt E1opt : Option α)
    (onesW : α) : CtxFields α :=
  { yv := y, E0 := E, W := Wopt.getD onesW, E1 := E1opt.getD E }

/-- The helper `run_association` (src/cellregmap/_cellregmap.py line 471) constructs
the context with `CellRegMap(y, W, E, hK=hK)`: the second positional
argument — the caller's covariates `W` — binds the constructor's context
parameter `E`, and the third — the caller's contexts `E` — binds the
covariates parameter `W`. -/
def run_association_ctx {α : Type} (y W E : α) (onesW : α) : CtxFields α :=
  cellRegMap_ctor y W (some E) none onesW

/-- The helper `run_association_fast` (line 502) performs the identical positional
call `CellRegMap(y, W, E, hK=hK)`. -/
def run_association_fast_ctx {α : Type} (y W E : α) (onesW : α) :
    CtxFields α :=
  cellRegMap_ctor y W (some E) none onesW

/-- The method `scan_association` fits the null with `LMM(self._y, self._W, QS)`
(line 265): the fixed-effect design is the stored `_W` field. -/
def scan_association_design {α : Type} (ctx : CtxFields α) : α := ctx.W

/-- The background half-matrices of the association scan are built from
the stored `_E1` field (lines 116, 123). -/
def scan_association_environment {α : Type} (ctx : CtxFields α) : α :=
  ctx.E1

/-- C10: via `run_association` / `run_association_fast`, the caller's `W`
lands in the context fields `_E0` and `_E1` and the caller's `E` in `_W`,
so the association scan uses the caller's `E` as fixed-effect design and
the caller's `W` as the environment. -/
theorem run_association_swaps_W_E {α : Type} (y W E onesW : α) :
    (run_association_ctx y W E onesW).E0 = W ∧
      (run_association_ctx y W E onesW).W = E ∧
      (run_association_ctx y W E onesW).E1 = W ∧
      scan_association_design (run_association_ctx y W E onesW) = E ∧
      scan_association_environment (run_association_ctx y W E onesW) = W ∧
      run_association_fast_ctx y W E onesW = run_association_ctx y W E onesW :=
  ⟨rfl, rfl, rfl, rfl, rfl, rfl⟩

/-- Column `i` of a row-major matrix. -/
def column (G : List (List ℚ)) (i : Nat) : List ℚ :=
  G.map (fun row => row.getD i 0)

/-- Row selection `M[idx, :]`. -/
def selectRows (M : List (List ℚ)) (idx : List Nat) : List (List ℚ) :=
  idx.map (fun j => M.getD j [])

/-- Vector permutation/subsetting `v[idx]`. -/
def permuteVec (g : List ℚ) (idx : List Nat) : List ℚ :=
  idx.map (fun j => g.getD j 0)

/-- In `CellRegMap.scan_interaction` (line 345): the alternative context is
`self._E0` when `idx_E is None`, else `self._E0[idx_E, :]`. -/
def cellRegMap_scanInt_E0 (E0 : List (List ℚ)) (idxE : Option (List Nat)) :
    List (List ℚ) :=
  match idxE with
  | none => E0
  | some ix => selectRows E0 ix

/-- The genotype vector entering the score statistic in
`process_snp_batch` (src/cellregmap/_cellregmap.py line 404):
`gtest = g.ravel()`.  The `idx_G` parameter accepted by
`CellRegMap.scan_interaction` (line 326) never occurs in the body, so it
is carried here unused. -/
def cellRegMap_scanInt_gtest (G : List (List ℚ))
    (_idxG : Option (List Nat)) (i : Nat) : List ℚ :=
  column G i

/-- Model of `StructLMM2.scan_interaction` (src/struct_lmm2/_struct_lmm2.py lines
377-380): `gtest = g.ravel()` when `idx_G is None`, else
`g.ravel()[idx_G]`. -/
def structLMM2_scanInt_gtest (G : List (List ℚ))
    (idxG : Option (List Nat)) (i : Nat) : List ℚ :=
  match idxG with
  | none => column G i
  | some ix => permuteVec (column G i) ix

/-- The helper `run_interaction` (src/cellregmap/_cellregmap.py line 565) invokes
`crm.scan_interaction(G, idx_G)`: `idx_G` is passed positionally into the
`idx_E` slot of `scan_interaction`, and the `idx_G` slot stays `None`.
The result is the `(idx_E, idx_G)` pair `scan_interaction` receives. -/
def run_interaction_scan_args (idxG : Option (List Nat)) :
    Option (List Nat) × Option (List Nat) :=
  (idxG, none)

/-- C5 (code evaluated at the failing input): with genotype column
`[1, 2]` and permutation `idx_G = [1, 0]`, `CellRegMap.scan_interaction`
feeds the UNPERMUTED genotype `[1, 2]` to the score statistic, while
`StructLMM2.scan_interaction` (the documented behaviour) feeds `[2, 1]`;
moreover `run_interaction` routes `idx_G` into the `idx_E` slot, so the
alternative context `E0` gets reordered instead of the genotype. -/
theorem scan_interaction_ignores_idxG :
    cellRegMap_scanInt_gtest [[1], [2]] (some [1, 0]) 0 = [1, 2] ∧
      structLMM2_scanInt_gtest [[1], [2]] (some [1, 0]) 0 = [2, 1] ∧
      ([1, 2] : List ℚ) ≠ [2, 1] ∧
      run_interaction_scan_args (some [1, 0]) = (some [1, 0], none) ∧
      cellRegMap_scanInt_E0 [[10], [20]] (some [1, 0]) = [[20], [10]] := by
  refine ⟨?_, ?_, ?_, rfl, ?_⟩ <;> decide

/-- The half-matrix built by the Covariance Builder
(src/cellregmap/_cellregmap.py lines 136-138):
`hS = concatenate([sqrt(rho1) * E1] + [sqrt(1 - rho1) * L for L in Ls],
axis=1)`.  Column-wise concatenation is modelled by the sum index type
`c0 ⊕ Fin m × c1` (`m` secondary factors, each n×c1 as produced by
`get_L_values`). -/
noncomputable def halfSigma {n c0 c1 : Type} (m : Nat)
    (E1 : Matrix n c0 ℝ) (Ls : Fin m → Matrix n c1 ℝ) (rho : ℝ) :
    Matrix n (c0 ⊕ Fin m × c1) ℝ :=
  Matrix.of fun r j =>
    match j with
    | Sum.inl j0 => Real.sqrt rho * E1 r j0
    | Sum.inr (i, j1) => Real.sqrt (1 - rho) * Ls i r j1

/-- C2: for every ρ ∈ [0,1] the half-matrix satisfies
`H(ρ)·H(ρ)ᵀ = ρ·E1·E1ᵀ + (1-ρ)·Σᵢ Lᵢ·Lᵢᵀ`, and the implied covariance is
positive semi-definite, being the Gram matrix of `H(ρ)`. -/
theorem halfSigma_gram {n c0 c1 : Type} [Fintype n] [Fintype c0]
    [Fintype c1] {m : Nat} (E1 : Matrix n c0 ℝ) (Ls : Fin m → Matrix n c1 ℝ)
    (rho : ℝ) (h0 : 0 ≤ rho) (h1 : rho ≤ 1) :
    halfSigma m E1 Ls rho * (halfSigma m E1 Ls rho)ᵀ =
        rho • (E1 * E1ᵀ) + (1 - rho) • ∑ i : Fin m, Ls i * (Ls i)ᵀ ∧
      (halfSigma m E1 Ls rho * (halfSigma m E1 Ls rho)ᵀ).PosSemidef := by
  constructor
  · have hr : Real.sqrt rho * Real.sqrt rho = rho := Real.mul_self_sqrt h0
    have hr1 : Real.sqrt (1 - rho) * Real.sqrt (1 - rho) = 1 - rho :=
      Real.mul_self_sqrt (by linarith)
    ext r s
    simp only [Matrix.mul_apply, Matrix.transpose_apply, Matrix.add_apply,
      Matrix.smul_apply, Matrix.sum_apply, smul_eq_mul, halfSigma,
      Matrix.of_apply, Fintype.sum_sum_type, Fintype.sum_prod_type]
    have hleft : ∑ j0 : c0,
        Real.sqrt rho * E1 r j0 * (Real.sqrt rho * E1 s j0) =
          rho * ∑ j0 : c0, E1 r j0 * E1 s j0 := by
      rw [Finset.mul_sum]
      refine Finset.sum_congr rfl fun j0 _ => ?_
      calc Real.sqrt rho * E1 r j0 * (Real.sqrt rho * E1 s j0)
          = Real.sqrt rho * Real.sqrt rho * (E1 r j0 * E1 s j0) := by ring
        _ = rho * (E1 r j0 * E1 s j0) := by rw [hr]
    have hright : ∑ i : Fin m, ∑ j1 : c1,
        Real.sqrt (1 - rho) * Ls i r j1 * (Real.sqrt (1 - rho) * Ls i s j1) =
          (1 - rho) * ∑ i : Fin m, ∑ j1 : c1, Ls i r j1 * Ls i s j1 := by
      rw [Finset.mul_sum]
      refine Finset.sum_congr rfl fun i _ => ?_
      rw [Finset.mul_sum]
      refine Finset.sum_congr rfl fun j1 _ => ?_
      calc Real.sqrt (1 - rho) * Ls i r j1 * (Real.sqrt (1 - rho) * Ls i s j1)
          = Real.sqrt (1 - rho) * Real.sqrt (1 - rho) *
              (Ls i r j1 * Ls i s j1) := by ring
        _ = (1 - rho) * (Ls i r j1 * Ls i s j1) := by rw [hr1]
    rw [hleft, hright]
  · have := Matrix.posSemidef_self_mul_conjTranspose (halfSigma m E1 Ls rho)
    rwa [Matrix.conjTranspose_eq_transpose_of_trivial] at this

/-- Witness for C2 at `ρ = 1/2` with the concrete blocks `E1 = [[2]]`,
`L₁ = [[3]]`. -/
theorem halfSigma_gram_witness :
    (0 : ℝ) ≤ 1 / 2 ∧ (1 / 2 : ℝ) ≤ 1 ∧
      (halfSigma 1 (!![(2 : ℝ)]) (fun _ => !![(3 : ℝ)]) (1 / 2) *
            (halfSigma 1 (!![(2 : ℝ)]) (fun _ => !![(3 : ℝ)]) (1 / 2))ᵀ =
          (1 / 2 : ℝ) • (!![(2 : ℝ)] * (!![(2 : ℝ)])ᵀ) +
            (1 - 1 / 2 : ℝ) •
              ∑ i : Fin 1, (fun _ : Fin 1 => !![(3 : ℝ)]) i *
                ((fun _ : Fin 1 => !![(3 : ℝ)]) i)ᵀ ∧
        (halfSigma 1 (!![(2 : ℝ)]) (fun _ => !![(3 : ℝ)]) (1 / 2) *
            (halfSigma 1 (!![(2 : ℝ)]) (fun _ => !![(3 : ℝ)]) (1 / 2))ᵀ).PosSemidef) :=
  ⟨by norm_num, by norm_num,
    halfSigma_gram (!![(2 : ℝ)]) (fun _ => !![(3 : ℝ)]) (1 / 2)
      (by norm_num) (by norm_num)⟩

end CellRegMap
